import Mathlib

/-!
Verification development for the Gophermart loyalty-bonus service
(`internal/app/services/service.go` and the repository layer).

Shallow embedding conventions:
* Go strings are modelled as `List Char` (`GoStr`); `len` is the UTF-8 byte
  length, and `for i, r := range s` iterates runes with `i` the byte offset.
* `decimal.Decimal` (shopspring, exact decimal arithmetic) is modelled as `ℤ`.
* `uuid.UUID` is modelled as `Nat` (`0` plays the role of `uuid.Nil`).
* The Postgres tables are modelled as lists of rows; SQL `UPDATE ... WHERE`
  maps over every matching row, `INSERT` appends, `SELECT ... LIMIT`-style
  single-row reads are `List.find?`.
* Repository writes are modelled as total functions on the storage state
  (no database-failure injection); hence a transaction body in the sweep and
  intake paths always reaches its commit.  The generic `withTransaction`
  combinator is embedded separately with failing and panicking bodies.
* The concurrent fan-in of the worker pool is modelled by passing the sweep
  loop the list of drained channel events in an arbitrary arrival order;
  theorems quantify over (permutations of) the workers' emissions.
-/

namespace Gophermart

abbrev GoStr := List Char

/-- Errors from `internal/app/models` and ad-hoc errors of `service.go`. -/
inductive GoError where
  | errOrderNumber
  | errUserOrderExists
  | errAnotherUserOrderExists
  | errAccessingDB
  | errNotEnoughFunds
  | errInternalServer
  | errTransport
  | errParse
deriving DecidableEq, Repr

/-! ## Luhn validation (`isValidLuhn`, service.go lines 61-78) -/

/-- `strconv.Atoi(string(r))` with the error discarded: a single ASCII digit
rune parses to its value, anything else leaves the zero value. -/
def atoiRune (c : Char) : Nat :=
  if c.isDigit then c.toNat - 48 else 0

/-- Go `len` of a string: its UTF-8 byte length. -/
def goLen (cs : GoStr) : Nat :=
  (cs.map Char.utf8Size).sum

/-- The summation loop of `isValidLuhn`: `i` is the byte offset of the current
rune (Go `range` semantics), `parity = len(number) % 2`. -/
def luhnGoSum : GoStr → Nat → Nat → Nat
  | [], _, _ => 0
  | c :: rest, i, parity =>
    let digit := atoiRune c
    let digit :=
      if i % 2 = parity then
        if digit * 2 > 9 then digit * 2 - 9 else digit * 2
      else digit
    digit + luhnGoSum rest (i + c.utf8Size) parity

/-- `isValidLuhn` from service.go. -/
def isValidLuhn (number : GoStr) : Bool :=
  luhnGoSum number 0 (goLen number % 2) % 10 == 0

/-! ### The mathematical Luhn checksum (spec-side definition)

Written from the spec's words ("Luhn checksum"): process the decimal digits
from the rightmost one leftwards, double every second digit (subtracting 9
when the double exceeds 9), and require the total to be divisible by 10. -/

def luhnDouble (d : Nat) : Nat :=
  if d * 2 > 9 then d * 2 - 9 else d * 2

/-- Alternating sum over a digit list given least-significant-first;
the first element (rightmost digit) is not doubled. -/
def luhnAltSum : Bool → List Nat → Nat
  | _, [] => 0
  | dbl, d :: rest => (if dbl then luhnDouble d else d) + luhnAltSum (!dbl) rest

/-- Luhn checksum of a digit list given most-significant-first. -/
def luhnChecksum (ds : List Nat) : Nat :=
  luhnAltSum false ds.reverse

/-- Left-to-right alternating Luhn sum, used to bridge the byte-offset
formulation of `isValidLuhn` with the right-to-left `luhnAltSum`: the flag
says whether the current digit is doubled and flips at each step. -/
def luhnLeftSum : List Nat → Bool → Nat
  | [], _ => 0
  | d :: rest, dbl => (if dbl then luhnDouble d else d) + luhnLeftSum rest (!dbl)

/-! ## Data model (`internal/app/models`, repository tables) -/

/-- A row of the `orders` table (`order_number, uuid, accrual, status`). -/
structure OrderRow where
  number : GoStr
  uuid : Nat
  accrual : Option ℤ
  status : GoStr
deriving DecidableEq, Repr

/-- A row of the `withdrawals` table. -/
structure WithdrawalRow where
  uuid : Nat
  number : GoStr
  sum : ℤ
deriving DecidableEq, Repr

/-- The storage state: `orders`, `balance` and `withdrawals` tables. -/
structure Storage where
  orders : List OrderRow
  balances : List (Nat × ℤ)
  withdrawals : List WithdrawalRow
deriving DecidableEq, Repr

/-- `models.UserOrder` as scanned by the pending-order queries. -/
structure UserOrder where
  UserID : Nat
  Number : GoStr
  Status : GoStr
deriving DecidableEq, Repr

/-- `models.AccrualResponseData`. -/
structure AccrualResponseData where
  UserID : Nat
  Order : GoStr
  Status : GoStr
  Accrual : Option ℤ
deriving DecidableEq, Repr

/-! ## Repository operations (repository layer) -/

/-- `GetUserBalance`: `SELECT user_balance FROM balance WHERE uuid = $1`;
`none` is the `pgx.ErrNoRows` outcome. -/
def getBalance (st : Storage) (uid : Nat) : Option ℤ :=
  (st.balances.find? (fun p => p.1 == uid)).map (·.2)

/-- `UpdateUserBalance`: `UPDATE balance SET user_balance = $1 WHERE uuid = $2`. -/
def updateUserBalance (st : Storage) (uid : Nat) (nb : ℤ) : Storage :=
  { st with balances := st.balances.map (fun p => if p.1 == uid then (p.1, nb) else p) }

/-- `UsersBalanceUpdate`: one `UPDATE balance` per map entry. -/
def usersBalanceUpdate (st : Storage) (m : List (Nat × ℤ)) : Storage :=
  m.foldl (fun s p => updateUserBalance s p.1 p.2) st

/-- `UpdateOrders`: `UPDATE orders SET status = $1, accrual = $2 WHERE
order_number = $3`, once per result row. -/
def updateOrdersRows (st : Storage) (rs : List AccrualResponseData) : Storage :=
  rs.foldl
    (fun s r =>
      { s with orders := s.orders.map (fun row =>
          if row.number == r.Order then
            { row with status := r.Status, accrual := r.Accrual }
          else row) })
    st

/-- `StoreUserOrder`: `INSERT INTO orders (order_number, uuid, accrual, status)`. -/
def storeUserOrder (st : Storage) (n : GoStr) (status : GoStr) (uid : Nat) (bonus : ℤ) :
    Storage :=
  { st with orders := st.orders ++ [⟨n, uid, some bonus, status⟩] }

/-- `StoreUserWithdrawal`: `INSERT INTO withdrawals (uuid, order_number, sum)`. -/
def storeUserWithdrawal (st : Storage) (uid : Nat) (n : GoStr) (sum : ℤ) : Storage :=
  { st with withdrawals := st.withdrawals ++ [⟨uid, n, sum⟩] }

/-- `GetUUIDFromOrders`: owner lookup by order number (`none` = `ErrNoRows`). -/
def getUUIDFromOrders (st : Storage) (n : GoStr) : Option Nat :=
  (st.orders.find? (fun row => row.number == n)).map (·.uuid)

/-- `GetProcessingOrders`: orders whose status is `REGISTERED`, `PROCESSING`
or `NEW`, scanning number, status and uuid. -/
def GetProcessingOrders (st : Storage) : List UserOrder :=
  (st.orders.filter (fun row =>
      row.status == "REGISTERED".data || row.status == "PROCESSING".data ||
        row.status == "NEW".data)).map
    (fun row => ⟨row.uuid, row.number, row.status⟩)

/-- `GetUserProcessingOrders`: one user's orders with status `NEW` or
`PROCESSING`; only number and status are scanned, so `UserID` stays at its
zero value. -/
def GetUserProcessingOrders (st : Storage) (uid : Nat) : List UserOrder :=
  (st.orders.filter (fun row =>
      row.uuid == uid &&
        (row.status == "NEW".data || row.status == "PROCESSING".data))).map
    (fun row => ⟨0, row.number, row.status⟩)

/-- Assignment into the Go map `usersBalanceToUpdate` (`m[k] = v`):
overwrite the entry when the key is present, append it otherwise. -/
def mapInsert (m : List (Nat × ℤ)) (k : Nat) (v : ℤ) : List (Nat × ℤ) :=
  if m.any (fun p => p.1 == k) then
    m.map (fun p => if p.1 == k then (k, v) else p)
  else m ++ [(k, v)]

/-! ## Accrual client (`GetAccrualAPI`, service.go lines 509-553) -/

/-- The body of a non-204/429/500 accrual response, as far as
`json.Unmarshal` into `models.AccrualResponseData` is concerned. -/
structure AccrualBody where
  order : GoStr
  status : GoStr
  accrual : Option ℤ
deriving DecidableEq, Repr

/-- The HTTP-level outcome of one query to the external accrual service.
`okBody none` is a response whose body fails to unmarshal; `transportError`
covers `client.Do` / `io.ReadAll` failures. -/
inductive AccrualHTTPResponse where
  | tooManyRequests
  | noContent
  | internalServerError
  | okBody (parsed : Option AccrualBody)
  | transportError
deriving DecidableEq, Repr

/-- `GetAccrualAPI`: classifies the external response.  429 and 204 fold to a
non-error result with status `NEW` and no accrual; 500, transport failures
and unparsable bodies are errors; any other response is the parsed body with
`UserID` copied from the queried order. -/
def GetAccrualAPI (order : UserOrder) (resp : AccrualHTTPResponse) :
    Except GoError AccrualResponseData :=
  match resp with
  | .transportError => .error .errTransport
  | .tooManyRequests => .ok ⟨order.UserID, order.Number, "NEW".data, none⟩
  | .noContent => .ok ⟨order.UserID, order.Number, "NEW".data, none⟩
  | .internalServerError => .error .errInternalServer
  | .okBody none => .error .errParse
  | .okBody (some b) => .ok ⟨order.UserID, b.order, b.status, b.accrual⟩

/-! ## Worker pool (`worker`, service.go lines 345-357) -/

/-- One drained channel event: a success from `resultCh` or an error from
`errCh`. -/
abbrev Event := Except GoError AccrualResponseData

/-- Equality of drained events is decidable (needed to evaluate the sweep
functions on concrete inputs). -/
instance : DecidableEq Event := fun a b =>
  match a, b with
  | .error x, .error y =>
    if h : x = y then isTrue (by rw [h]) else isFalse (by intro hc; cases hc; exact h rfl)
  | .ok x, .ok y =>
    if h : x = y then isTrue (by rw [h]) else isFalse (by intro hc; cases hc; exact h rfl)
  | .error _, .ok _ => isFalse (by intro hc; cases hc)
  | .ok _, .error _ => isFalse (by intro hc; cases hc)

/-- What one worker emits for one task: the error on failure, the result on
success but only when the newly observed status differs from the task's
status, nothing otherwise. -/
def workerStep (task : UserOrder) (resp : AccrualHTTPResponse) : Option Event :=
  match GetAccrualAPI task resp with
  | .error e => some (.error e)
  | .ok responseData =>
      if task.Status ≠ responseData.Status then some (.ok responseData) else none

/-- All events emitted by the pool for a task list, given the external
service's response per order number (the arrival order at the aggregator is
an arbitrary permutation of this list). -/
def emissions (resp : GoStr → AccrualHTTPResponse) (tasks : List UserOrder) :
    List Event :=
  tasks.filterMap (fun t => workerStep t (resp t.Number))

/-! ## withTransaction (service.go lines 315-335) -/

/-- Outcome of a transaction body: normal return of `nil`, normal return of
an error, or a panic; each carries the working state the body had built up
inside the transaction. -/
inductive TxBodyResult (σ : Type) where
  | ok (s : σ)
  | fail (e : GoError) (s : σ)
  | panicked (s : σ)

/-- Outcome of `withTransaction`: a normal return with the now-visible state,
or a propagated panic with the state visible after rollback. -/
inductive TxResult (σ : Type) where
  | completed (s : σ) (e : Option GoError)
  | panicked (s : σ)
deriving DecidableEq

/-- `withTransaction`: commit exactly when the body returns `nil`; a body
error triggers rollback (the working state is discarded, the pre-transaction
state stays visible); a body panic triggers rollback and then re-raises. -/
def withTransaction {σ : Type} (s : σ) (body : σ → TxBodyResult σ) : TxResult σ :=
  match body s with
  | .ok s' => .completed s' none
  | .fail e _ => .completed s (some e)
  | .panicked _ => .panicked s

/-! ## Sweeps (service.go lines 360-430 and 434-505)

Repository writes are modelled as total, so the `withTransaction` bodies of
the sweeps always reach their commit; the sweeps below apply the committed
state directly and record in `txOpened` whether the transaction was started. -/

/-- Result of one sweep: the visible storage, whether a commit transaction
was opened, and the returned error. -/
structure SweepResult where
  store : Storage
  txOpened : Bool
  err : Option GoError
deriving DecidableEq

/-- The drain loop of `RunUpdateOrdersStatusJob`: walks the arrival order of
channel events; a drained error returns immediately; a success is appended to
`ordersToUpdate` and, when it carries an accrual, the user's current stored
balance is re-read and the per-user map entry overwritten with
`balance + accrual`. -/
def drainGlobalGo (st : Storage) :
    List Event → List AccrualResponseData → List (Nat × ℤ) →
      Except GoError (List AccrualResponseData × List (Nat × ℤ))
  | [], ordersToUpdate, m => .ok (ordersToUpdate, m)
  | .error e :: _, _, _ => .error e
  | .ok accrualData :: rest, ordersToUpdate, m =>
    match accrualData.Accrual with
    | none => drainGlobalGo st rest (ordersToUpdate ++ [accrualData]) m
    | some a =>
      match getBalance st accrualData.UserID with
      | none => .error .errAccessingDB
      | some userBalance =>
        drainGlobalGo st rest (ordersToUpdate ++ [accrualData])
          (mapInsert m accrualData.UserID (userBalance + a))

/-- The body of the commit transaction of the system-wide sweep:
`UsersBalanceUpdate` then, when any order changed, `UpdateOrders`. -/
def globalCommitBody (st : Storage) (m : List (Nat × ℤ))
    (ordersToUpdate : List AccrualResponseData) : Storage :=
  let st1 := usersBalanceUpdate st m
  if ordersToUpdate.length > 0 then updateOrdersRows st1 ordersToUpdate else st1

/-- `RunUpdateOrdersStatusJob` given the drained channel events. -/
def RunUpdateOrdersStatusJob (st : Storage) (events : List Event) : SweepResult :=
  match drainGlobalGo st events [] [] with
  | .error e => ⟨st, false, some e⟩
  | .ok (ordersToUpdate, m) => ⟨globalCommitBody st m ordersToUpdate, true, none⟩

/-- The drain loop of `CheckUpdateUserOrders`: successes accumulate into a
local running total of accrual instead of re-reading the stored balance. -/
def drainUserGo :
    List Event → List AccrualResponseData → ℤ →
      Except GoError (List AccrualResponseData × ℤ)
  | [], ordersToUpdate, acc => .ok (ordersToUpdate, acc)
  | .error e :: _, _, _ => .error e
  | .ok accrualData :: rest, ordersToUpdate, acc =>
    match accrualData.Accrual with
    | none => drainUserGo rest (ordersToUpdate ++ [accrualData]) acc
    | some a => drainUserGo rest (ordersToUpdate ++ [accrualData]) (acc + a)

/-- `CheckUpdateUserOrders` given the drained channel events: after the loop
the user's stored balance is read once and the accumulated accrual applied. -/
def CheckUpdateUserOrders (st : Storage) (uid : Nat) (events : List Event) :
    SweepResult :=
  match drainUserGo events [] 0 with
  | .error e => ⟨st, false, some e⟩
  | .ok (ordersToUpdate, accrualToUpdate) =>
    match getBalance st uid with
    | none => ⟨st, false, some .errAccessingDB⟩
    | some userBalance =>
      let newUserBalance := userBalance + accrualToUpdate
      let st1 := updateUserBalance st uid newUserBalance
      let st2 :=
        if ordersToUpdate.length > 0 then updateOrdersRows st1 ordersToUpdate else st1
      ⟨st2, true, none⟩

/-! ## Order intake (`InputUserOrder`, service.go lines 246-312) -/

/-- Outcome of `InputUserOrder`: a normal return with the visible storage and
the returned error, or a runtime panic. -/
inductive IntakeResult where
  | completed (st : Storage) (e : Option GoError)
  | panicked
deriving DecidableEq

/-- `InputUserOrder`: Luhn validation, owner lookup, one immediate accrual
query, `REGISTERED`→`NEW` normalization, then
`newUserBalance := userBalance.Add(*accrualData.Accrual)` — a nil-pointer
dereference (hence a panic) when the result carries no accrual — followed by
the order-insert + balance-update transaction. -/
def InputUserOrder (st : Storage) (userID : Nat) (orderNumber : GoStr)
    (resp : AccrualHTTPResponse) : IntakeResult :=
  if ¬ isValidLuhn orderNumber then .completed st (some .errOrderNumber)
  else
    match getUUIDFromOrders st orderNumber with
    | some savedUserID =>
      if savedUserID = userID then .completed st (some .errUserOrderExists)
      else .completed st (some .errAnotherUserOrderExists)
    | none =>
      match GetAccrualAPI ⟨0, orderNumber, []⟩ resp with
      | .error e => .completed st (some e)
      | .ok data0 =>
        let accrualData :=
          if data0.Status = "REGISTERED".data then
            { data0 with Status := "NEW".data }
          else data0
        let userBalance := (getBalance st userID).getD 0
        match accrualData.Accrual with
        | none => .panicked
        | some a =>
          let newUserBalance := userBalance + a
          let st1 := storeUserOrder st orderNumber accrualData.Status userID a
          let st2 := updateUserBalance st1 userID newUserBalance
          .completed st2 none

/-! ## Withdrawal (`WithdrawalBonusForNewOrder`, service.go lines 587-613) -/

/-- `WithdrawalBonusForNewOrder`: Luhn validation, balance read,
insufficient-funds guard, then the withdrawal-insert + balance-update
transaction. -/
def WithdrawalBonusForNewOrder (st : Storage) (userID : Nat) (orderNumber : GoStr)
    (sum : ℤ) : Storage × Option GoError :=
  if ¬ isValidLuhn orderNumber then (st, some .errOrderNumber)
  else
    match getBalance st userID with
    | none => (st, some .errAccessingDB)
    | some userBalance =>
      if userBalance < sum then (st, some .errNotEnoughFunds)
      else
        let newUserBalance := userBalance - sum
        let st1 := storeUserWithdrawal st userID orderNumber sum
        let st2 := updateUserBalance st1 userID newUserBalance
        (st2, none)

/-! ## Derived views of a drained event list -/

/-- The successful results among the drained events, in arrival order. -/
def eventsOkList (events : List Event) : List AccrualResponseData :=
  events.filterMap (fun ev => match ev with | .ok r => some r | .error _ => none)

/-- The total accrual carried by the drained events. -/
def eventsAccrualSum (events : List Event) : ℤ :=
  (events.filterMap (fun ev => match ev with | .ok r => r.Accrual | .error _ => none)).sum

/-- The empty storage, used to instantiate universally quantified theorems. -/
def stEmpty : Storage := ⟨[], [], []⟩

/-- Concrete storage: user 7 with balance 0 and two pending orders. -/
def stTwoOrders : Storage :=
  ⟨[⟨"18".data, 7, none, "NEW".data⟩, ⟨"26".data, 7, none, "NEW".data⟩], [(7, 0)], []⟩

/-- Concrete accrual responses: order 18 is `PROCESSED` with accrual 1,
every other order is `PROCESSED` with accrual 2. -/
def respTwoAccruals : GoStr → AccrualHTTPResponse := fun n =>
  if n = "18".data then .okBody (some ⟨"18".data, "PROCESSED".data, some 1⟩)
  else .okBody (some ⟨"26".data, "PROCESSED".data, some 2⟩)

/-- Concrete storage: user 1 with balance 10 and one `PROCESSING` order
that already carries a stored accrual of 5. -/
def stProcessing : Storage :=
  ⟨[⟨"11".data, 1, some 5, "PROCESSING".data⟩], [(1, 10)], []⟩

/-- Concrete storage: user 1 with balance 0 and one `NEW` order. -/
def stNewOrder : Storage := ⟨[⟨"11".data, 1, none, "NEW".data⟩], [(1, 0)], []⟩

/-- Concrete accrual responses: every order is reported `REGISTERED`. -/
def respRegistered : GoStr → AccrualHTTPResponse :=
  fun _ => .okBody (some ⟨"11".data, "REGISTERED".data, none⟩)

/-- Concrete storage: user 1 with balance 0 and one pending order 18. -/
def stOneOrder : Storage := ⟨[⟨"18".data, 1, none, "NEW".data⟩], [(1, 0)], []⟩

/-! ## Helper lemmas about the storage operations -/

theorem getBalance_updateUserBalance (st : Storage) (uid v : Nat) (nb : ℤ) :
    getBalance (updateUserBalance st uid nb) v
      = if v = uid then (getBalance st uid).map (fun _ => nb) else getBalance st v := by
  have hpf : ((fun p : Nat × ℤ => p.1 == v) ∘ (fun p => if p.1 == uid then (p.1, nb) else p))
      = fun p : Nat × ℤ => p.1 == v := by
    funext p; by_cases h : p.1 = uid <;> simp [h]
  unfold getBalance updateUserBalance
  rw [List.find?_map, hpf]
  rcases hfind : st.balances.find? (fun p => p.1 == v) with _ | q
  · by_cases h : v = uid
    · subst h; simp [hfind]
    · simp [h, hfind]
  · have hq : q.1 = v := by simpa using List.find?_some hfind
    by_cases h : v = uid
    · subst h
      simp [hfind, hq]
    · have : ¬ q.1 = uid := by rw [hq]; exact h
      simp [hfind, hq, h, this]

theorem getBalance_updateUserBalance_self (st : Storage) (uid : Nat) (nb b : ℤ)
    (h : getBalance st uid = some b) :
    getBalance (updateUserBalance st uid nb) uid = some nb := by
  simp [getBalance_updateUserBalance, h]

theorem updateOrdersRows_balances (rs : List AccrualResponseData) (st : Storage) :
    (updateOrdersRows st rs).balances = st.balances := by
  induction rs generalizing st with
  | nil => rfl
  | cons r rest ih => simp [updateOrdersRows, List.foldl_cons] at ih ⊢; exact ih _

theorem updateOrdersRows_withdrawals (rs : List AccrualResponseData) (st : Storage) :
    (updateOrdersRows st rs).withdrawals = st.withdrawals := by
  induction rs generalizing st with
  | nil => rfl
  | cons r rest ih => simp [updateOrdersRows, List.foldl_cons] at ih ⊢; exact ih _

theorem getBalance_updateOrdersRows (rs : List AccrualResponseData) (st : Storage)
    (v : Nat) : getBalance (updateOrdersRows st rs) v = getBalance st v := by
  simp [getBalance, updateOrdersRows_balances]

theorem usersBalanceUpdate_orders (m : List (Nat × ℤ)) (st : Storage) :
    (usersBalanceUpdate st m).orders = st.orders := by
  induction m generalizing st with
  | nil => rfl
  | cons p rest ih => simp [usersBalanceUpdate, List.foldl_cons] at ih ⊢; exact ih _

theorem usersBalanceUpdate_singleton (st : Storage) (u : Nat) (x : ℤ) :
    usersBalanceUpdate st [(u, x)] = updateUserBalance st u x := rfl

theorem storeUserWithdrawal_balances (st : Storage) (uid : Nat) (n : GoStr) (s : ℤ) :
    (storeUserWithdrawal st uid n s).balances = st.balances := rfl

theorem getBalance_storeUserWithdrawal (st : Storage) (uid : Nat) (n : GoStr) (s : ℤ)
    (v : Nat) : getBalance (storeUserWithdrawal st uid n s) v = getBalance st v := rfl

theorem getBalance_storeUserOrder (st : Storage) (n : GoStr) (status : GoStr)
    (uid : Nat) (bonus : ℤ) (v : Nat) :
    getBalance (storeUserOrder st n status uid bonus) v = getBalance st v := rfl

/-! ## Helper lemmas about the drain loops -/

theorem drainUserGo_all_ok (events : List Event)
    (h : ∀ ev ∈ events, ∃ r, ev = .ok r) (acc0 : List AccrualResponseData) (s0 : ℤ) :
    drainUserGo events acc0 s0
      = .ok (acc0 ++ eventsOkList events, s0 + eventsAccrualSum events) := by
  induction events generalizing acc0 s0 with
  | nil => simp [drainUserGo, eventsOkList, eventsAccrualSum]
  | cons ev rest ih =>
    obtain ⟨r, hr⟩ := h ev (by simp)
    subst hr
    have hrest : ∀ ev ∈ rest, ∃ r, ev = .ok r := fun ev hev => h ev (by simp [hev])
    rcases ha : r.Accrual with _ | a
    · simp [drainUserGo, ha, ih hrest, eventsOkList, eventsAccrualSum]
    · simp [drainUserGo, ha, ih hrest, eventsOkList, eventsAccrualSum]
      ring

theorem drainUserGo_error (events : List Event) (e : GoError)
    (hmem : Except.error e ∈ events)
    (hall : ∀ e' : GoError, Except.error e' ∈ events → e' = e)
    (acc0 : List AccrualResponseData) (s0 : ℤ) :
    drainUserGo events acc0 s0 = .error e := by
  induction events generalizing acc0 s0 with
  | nil => simp at hmem
  | cons ev rest ih =>
    rcases ev with e' | r
    · have : e' = e := hall e' (by simp)
      subst this
      simp [drainUserGo]
    · have hmem' : Except.error e ∈ rest := by
        rcases List.mem_cons.mp hmem with h | h
        · exact absurd h (by simp)
        · exact h
      have hall' : ∀ e' : GoError, Except.error e' ∈ rest → e' = e :=
        fun e' h => hall e' (List.mem_cons_of_mem _ h)
      rcases ha : r.Accrual with _ | a
      · simpa [drainUserGo, ha] using ih hmem' hall' (acc0 ++ [r]) s0
      · simpa [drainUserGo, ha] using ih hmem' hall' (acc0 ++ [r]) (s0 + a)

theorem drainGlobalGo_error (st : Storage) (events : List Event) (e : GoError)
    (hmem : Except.error e ∈ events)
    (hall : ∀ e' : GoError, Except.error e' ∈ events → e' = e)
    (hbal : ∀ r : AccrualResponseData, Except.ok r ∈ events → r.Accrual.isSome →
      (getBalance st r.UserID).isSome)
    (acc0 : List AccrualResponseData) (m0 : List (Nat × ℤ)) :
    drainGlobalGo st events acc0 m0 = .error e := by
  induction events generalizing acc0 m0 with
  | nil => simp at hmem
  | cons ev rest ih =>
    rcases ev with e' | r
    · have : e' = e := hall e' (by simp)
      subst this
      simp [drainGlobalGo]
    · have hmem' : Except.error e ∈ rest := by
        rcases List.mem_cons.mp hmem with h | h
        · exact absurd h (by simp)
        · exact h
      have hall' : ∀ e' : GoError, Except.error e' ∈ rest → e' = e :=
        fun e' h => hall e' (List.mem_cons_of_mem _ h)
      have hbal' : ∀ r : AccrualResponseData, Except.ok r ∈ rest → r.Accrual.isSome →
          (getBalance st r.UserID).isSome :=
        fun r h => hbal r (List.mem_cons_of_mem _ h)
      rcases ha : r.Accrual with _ | a
      · simpa [drainGlobalGo, ha] using ih hmem' hall' hbal' (acc0 ++ [r]) m0
      · have hsome := hbal r (by simp) (by simp [ha])
        rcases hb : getBalance st r.UserID with _ | b
        · rw [hb] at hsome; simp at hsome
        · simpa [drainGlobalGo, ha, hb] using
            ih hmem' hall' hbal' (acc0 ++ [r]) (mapInsert m0 r.UserID (b + a))

theorem mapInsert_singleton_self (u : Nat) (w v : ℤ) :
    mapInsert [(u, w)] u v = [(u, v)] := by
  simp [mapInsert]

theorem drainGlobalGo_single_user (st : Storage) (u : Nat) (b0 : ℤ)
    (hb : getBalance st u = some b0)
    (rs : List AccrualResponseData) (rl : AccrualResponseData) (aL : ℤ)
    (hu : ∀ r ∈ rs ++ [rl], r.UserID = u)
    (hacc : ∀ r ∈ rs, ∃ a, r.Accrual = some a)
    (haL : rl.Accrual = some aL)
    (acc0 : List AccrualResponseData) (m0 : List (Nat × ℤ))
    (hm : m0 = [] ∨ ∃ w, m0 = [(u, w)]) :
    drainGlobalGo st ((rs ++ [rl]).map Except.ok) acc0 m0
      = .ok (acc0 ++ (rs ++ [rl]), [(u, b0 + aL)]) := by
  induction rs generalizing acc0 m0 with
  | nil =>
    have hru : rl.UserID = u := hu rl (by simp)
    rcases hm with h | ⟨w, h⟩ <;> subst h <;>
      simp [drainGlobalGo, haL, hru, hb, mapInsert]
  | cons r rs' ih =>
    have hru : r.UserID = u := hu r (by simp)
    obtain ⟨a, ha⟩ := hacc r (by simp)
    have hu' : ∀ x ∈ rs' ++ [rl], x.UserID = u := fun x hx => hu x (by simp [hx])
    have hacc' : ∀ x ∈ rs', ∃ a, x.Accrual = some a := fun x hx => hacc x (by simp [hx])
    have hm' : mapInsert m0 u (b0 + a) = [] ∨
        ∃ w, mapInsert m0 u (b0 + a) = [(u, w)] := by
      rcases hm with h | ⟨w, h⟩ <;> subst h
      · right; exact ⟨b0 + a, by simp [mapInsert]⟩
      · right; exact ⟨b0 + a, mapInsert_singleton_self u w (b0 + a)⟩
    have := ih hu' hacc' (acc0 ++ [r]) (mapInsert m0 u (b0 + a)) hm'
    simpa [drainGlobalGo, ha, hru, hb] using this

/-! ## Helper lemmas about worker emissions -/

theorem error_mem_emissions (resp : GoStr → AccrualHTTPResponse)
    (tasks : List UserOrder) (t : UserOrder) (e : GoError)
    (ht : t ∈ tasks) (hq : GetAccrualAPI t (resp t.Number) = .error e) :
    Except.error e ∈ emissions resp tasks := by
  refine List.mem_filterMap.mpr ⟨t, ht, ?_⟩
  simp [workerStep, hq]

theorem error_of_mem_emissions (resp : GoStr → AccrualHTTPResponse)
    (tasks : List UserOrder) (e : GoError)
    (h : Except.error e ∈ emissions resp tasks) :
    ∃ t ∈ tasks, GetAccrualAPI t (resp t.Number) = .error e := by
  obtain ⟨t, ht, hw⟩ := List.mem_filterMap.mp h
  refine ⟨t, ht, ?_⟩
  rcases hq : GetAccrualAPI t (resp t.Number) with e' | r
  · rw [workerStep, hq] at hw
    simp at hw
    rw [hw]
  · rw [workerStep, hq] at hw
    by_cases hs : t.Status ≠ r.Status <;> simp [hs] at hw

/-! ## Claim theorems -/

/-- C1 counterexample: user 7 starts with balance 0 and has two pending
orders that both receive a successful accrual-bearing result (1 and 2) in the
same system-wide sweep; the committed balance is 2 — the second re-read of
the stored balance overwrote the first map entry — not 0 + (1 + 2). -/
theorem C1_counterexample :
    getBalance (RunUpdateOrdersStatusJob stTwoOrders
        (emissions respTwoAccruals (GetProcessingOrders stTwoOrders))).store 7
      = some 2 ∧ (2 : ℤ) ≠ 0 + (1 + 2) := by
  constructor <;> decide

/-- C1 amended: the single-user sweep conserves balance — for a user with
starting balance `b0` whose drained events are all successes, the committed
balance is `b0` plus the sum of all carried accruals, for every `k ≥ 1`.
The system-wide sweep instead commits `b0 + aL` where `aL` is the accrual of
the last drained accrual-bearing result for that user, which equals
`b0 + Σ aᵢ` only when `k = 1`. -/
theorem C1_balance_conservation :
    (∀ (st : Storage) (uid : Nat) (events : List Event) (b0 : ℤ),
      (∀ ev ∈ events, ∃ r, ev = .ok r) →
      getBalance st uid = some b0 →
      (CheckUpdateUserOrders st uid events).err = none ∧
      getBalance (CheckUpdateUserOrders st uid events).store uid
        = some (b0 + eventsAccrualSum events)) ∧
    (∀ (st : Storage) (u : Nat) (b0 : ℤ) (rs : List AccrualResponseData)
        (rl : AccrualResponseData) (aL : ℤ),
      getBalance st u = some b0 →
      (∀ r ∈ rs ++ [rl], r.UserID = u) →
      (∀ r ∈ rs, ∃ a, r.Accrual = some a) →
      rl.Accrual = some aL →
      (RunUpdateOrdersStatusJob st ((rs ++ [rl]).map Except.ok)).err = none ∧
      getBalance (RunUpdateOrdersStatusJob st ((rs ++ [rl]).map Except.ok)).store u
        = some (b0 + aL)) := by
  constructor
  · intro st uid events b0 hok hb
    have hd := drainUserGo_all_ok events hok [] 0
    rw [zero_add, List.nil_append] at hd
    constructor
    · simp [CheckUpdateUserOrders, hd, hb]
    · by_cases hlen : (eventsOkList events).length > 0
      · simp [CheckUpdateUserOrders, hd, hb, hlen, getBalance_updateOrdersRows]
        exact getBalance_updateUserBalance_self st uid _ b0 hb
      · simp [CheckUpdateUserOrders, hd, hb, hlen]
        exact getBalance_updateUserBalance_self st uid _ b0 hb
  · intro st u b0 rs rl aL hb hu hacc haL
    have hd := drainGlobalGo_single_user st u b0 hb rs rl aL hu hacc haL [] []
      (Or.inl rfl)
    rw [List.nil_append] at hd
    simp only [List.map_append, List.map_cons, List.map_nil] at hd
    have hlen : (rs ++ [rl]).length > 0 := by simp
    constructor
    · simp [RunUpdateOrdersStatusJob, hd]
    · simp [RunUpdateOrdersStatusJob, hd, globalCommitBody, hlen,
        usersBalanceUpdate_singleton, getBalance_updateOrdersRows]
      exact getBalance_updateUserBalance_self st u _ b0 hb

/-- Witness for C1's amended theorem: user 1 with balance 3 receives two
successful results with accruals 4 and 5 in one single-user sweep; the
committed balance is 3 + (4 + 5) = 12. -/
theorem C1_balance_conservation_witness :
    getBalance (CheckUpdateUserOrders stOneOrder 1
        [Except.ok ⟨1, "18".data, "PROCESSED".data, some 4⟩,
         Except.ok ⟨1, "26".data, "PROCESSED".data, some 5⟩]).store 1
      = some (0 + eventsAccrualSum
          [Except.ok ⟨1, "18".data, "PROCESSED".data, some 4⟩,
           Except.ok ⟨1, "26".data, "PROCESSED".data, some 5⟩]) :=
  (C1_balance_conservation.1 stOneOrder 1
    [Except.ok ⟨1, "18".data, "PROCESSED".data, some 4⟩,
     Except.ok ⟨1, "26".data, "PROCESSED".data, some 5⟩] 0
    (by intro ev hev
        simp only [List.mem_cons, List.not_mem_nil, or_false] at hev
        rcases hev with h | h <;> exact ⟨_, h⟩)
    (by decide)).2

/-- C2: a single failing accrual query aborts the whole sweep: the sweep
function returns that error, opens no commit transaction, and leaves every
stored order status and every balance unchanged — for the system-wide sweep
and the single-user sweep, under any arrival order of the drained events. -/
theorem C2_fail_fast :
    (∀ (st : Storage) (resp : GoStr → AccrualHTTPResponse) (events : List Event)
        (e : GoError),
      events.Perm (emissions resp (GetProcessingOrders st)) →
      (∃ t ∈ GetProcessingOrders st, GetAccrualAPI t (resp t.Number) = .error e) →
      (∀ t ∈ GetProcessingOrders st, ∀ e' : GoError,
        GetAccrualAPI t (resp t.Number) = .error e' → e' = e) →
      (∀ r : AccrualResponseData, Except.ok r ∈ events → r.Accrual.isSome →
        (getBalance st r.UserID).isSome) →
      RunUpdateOrdersStatusJob st events = ⟨st, false, some e⟩) ∧
    (∀ (st : Storage) (uid : Nat) (resp : GoStr → AccrualHTTPResponse)
        (events : List Event) (e : GoError),
      events.Perm (emissions resp (GetUserProcessingOrders st uid)) →
      (∃ t ∈ GetUserProcessingOrders st uid,
        GetAccrualAPI t (resp t.Number) = .error e) →
      (∀ t ∈ GetUserProcessingOrders st uid, ∀ e' : GoError,
        GetAccrualAPI t (resp t.Number) = .error e' → e' = e) →
      CheckUpdateUserOrders st uid events = ⟨st, false, some e⟩) := by
  constructor
  · intro st resp events e hperm hex hall hbal
    obtain ⟨t, ht, hq⟩ := hex
    have hmem : Except.error e ∈ events :=
      hperm.mem_iff.mpr (error_mem_emissions resp _ t e ht hq)
    have hall' : ∀ e' : GoError, Except.error e' ∈ events → e' = e := by
      intro e' h
      obtain ⟨t', ht', hq'⟩ :=
        error_of_mem_emissions resp _ e' (hperm.mem_iff.mp h)
      exact hall t' ht' e' hq'
    have hdrain := drainGlobalGo_error st events e hmem hall' hbal [] []
    simp [RunUpdateOrdersStatusJob, hdrain]
  · intro st uid resp events e hperm hex hall
    obtain ⟨t, ht, hq⟩ := hex
    have hmem : Except.error e ∈ events :=
      hperm.mem_iff.mpr (error_mem_emissions resp _ t e ht hq)
    have hall' : ∀ e' : GoError, Except.error e' ∈ events → e' = e := by
      intro e' h
      obtain ⟨t', ht', hq'⟩ :=
        error_of_mem_emissions resp _ e' (hperm.mem_iff.mp h)
      exact hall t' ht' e' hq'
    have hdrain := drainUserGo_error events e hmem hall' [] 0
    simp [CheckUpdateUserOrders, hdrain]

/-- Witness for C2: one pending order whose query is answered with HTTP 500;
the sweep returns that error with no transaction and untouched storage. -/
theorem C2_fail_fast_witness :
    RunUpdateOrdersStatusJob stOneOrder [Except.error GoError.errInternalServer]
      = ⟨stOneOrder, false, some GoError.errInternalServer⟩ :=
  C2_fail_fast.1 stOneOrder (fun _ => .internalServerError)
    [Except.error GoError.errInternalServer] GoError.errInternalServer
    (by have h : emissions (fun _ => AccrualHTTPResponse.internalServerError)
            (GetProcessingOrders stOneOrder)
          = [Except.error GoError.errInternalServer] := by decide
        rw [h])
    (by decide)
    (by intro t ht e' h
        simp [GetAccrualAPI] at h
        exact h.symm)
    (by intro r hr
        simp at hr)

/-- C3: `withTransaction` commits exactly when the transaction body returns
`nil`; a body error triggers rollback and leaves storage unchanged; a body
panic triggers rollback before the panic propagates.  Consequently each
sweep's storage is either untouched or carries the balance mutations and the
order-status mutations of one commit together. -/
theorem C3_withTransaction_atomic :
    (∀ (s : Storage) (body : Storage → TxBodyResult Storage),
      (∀ s', body s = .ok s' → withTransaction s body = .completed s' none) ∧
      (∀ e s', body s = .fail e s' → withTransaction s body = .completed s (some e)) ∧
      (∀ s', body s = .panicked s' → withTransaction s body = .panicked s)) ∧
    (∀ (st : Storage) (events : List Event),
      (RunUpdateOrdersStatusJob st events).store = st ∨
        ∃ ous m, drainGlobalGo st events [] [] = .ok (ous, m) ∧
          (RunUpdateOrdersStatusJob st events).store = globalCommitBody st m ous) ∧
    (∀ (st : Storage) (uid : Nat) (events : List Event),
      (CheckUpdateUserOrders st uid events).store = st ∨
        ∃ ous acc b, drainUserGo events [] 0 = .ok (ous, acc) ∧
          getBalance st uid = some b ∧
          (CheckUpdateUserOrders st uid events).store
            = (if ous.length > 0
               then updateOrdersRows (updateUserBalance st uid (b + acc)) ous
               else updateUserBalance st uid (b + acc))) := by
  refine ⟨?_, ?_, ?_⟩
  · intro s body
    refine ⟨?_, ?_, ?_⟩
    · intro s' h; simp [withTransaction, h]
    · intro e s' h; simp [withTransaction, h]
    · intro s' h; simp [withTransaction, h]
  · intro st events
    rcases h : drainGlobalGo st events [] [] with e | ⟨ous, m⟩
    · left; simp [RunUpdateOrdersStatusJob, h]
    · right; exact ⟨ous, m, rfl, by simp [RunUpdateOrdersStatusJob, h]⟩
  · intro st uid events
    rcases h : drainUserGo events [] 0 with e | ⟨ous, acc⟩
    · left; simp [CheckUpdateUserOrders, h]
    · rcases hb : getBalance st uid with _ | b
      · left; simp [CheckUpdateUserOrders, h, hb]
      · right; exact ⟨ous, acc, b, rfl, rfl, by simp [CheckUpdateUserOrders, h, hb]⟩

/-- Witness for C3 at a concrete failing body: rollback leaves the empty
storage visible and surfaces the body's error. -/
theorem C3_withTransaction_atomic_witness :
    withTransaction stEmpty (fun s => TxBodyResult.fail GoError.errAccessingDB s)
      = TxResult.completed stEmpty (some GoError.errAccessingDB) :=
  ((C3_withTransaction_atomic.1 stEmpty
      (fun s => TxBodyResult.fail GoError.errAccessingDB s)).2.1
    GoError.errAccessingDB stEmpty rfl)

/-- C5: the claim is right and the code is wrong.  When the accrual query
succeeds but carries no accrual amount (here: a 429 or 204 response folded to
status `NEW` with a nil `Accrual`), `InputUserOrder` evaluates
`userBalance.Add(*accrualData.Accrual)` before its nil check and panics
instead of completing, storing the order and leaving the balance unchanged. -/
theorem C5_nil_accrual_panics :
    InputUserOrder stEmpty 1 "79927398713".data .tooManyRequests = .panicked ∧
    InputUserOrder stEmpty 1 "79927398713".data .noContent = .panicked := by
  constructor <;> decide

/-- C7 counterexample: on an empty candidate list the system-wide sweep does
not return early — the commit transaction is still opened (and the single-user
sweep additionally rewrites the user's balance row). -/
theorem C7_counterexample :
    GetProcessingOrders stEmpty = [] ∧
    (RunUpdateOrdersStatusJob stEmpty
        (emissions (fun _ => .tooManyRequests) (GetProcessingOrders stEmpty))).txOpened
      = true := by
  constructor <;> decide

/-- C7 amended: with an empty candidate list each sweep returns no error and
leaves every stored value unchanged (the user sweep rewrites the user's
balance row with its unchanged value), but both sweeps still open and commit
a transaction rather than returning before it. -/
theorem C7_empty_sweep :
    (∀ (st : Storage) (resp : GoStr → AccrualHTTPResponse),
      GetProcessingOrders st = [] →
      RunUpdateOrdersStatusJob st (emissions resp (GetProcessingOrders st))
        = ⟨st, true, none⟩) ∧
    (∀ (st : Storage) (uid : Nat) (resp : GoStr → AccrualHTTPResponse) (b : ℤ),
      GetUserProcessingOrders st uid = [] →
      getBalance st uid = some b →
      (CheckUpdateUserOrders st uid
          (emissions resp (GetUserProcessingOrders st uid))).txOpened = true ∧
      (CheckUpdateUserOrders st uid
          (emissions resp (GetUserProcessingOrders st uid))).err = none ∧
      (CheckUpdateUserOrders st uid
          (emissions resp (GetUserProcessingOrders st uid))).store.orders = st.orders ∧
      (CheckUpdateUserOrders st uid
          (emissions resp (GetUserProcessingOrders st uid))).store.withdrawals
        = st.withdrawals ∧
      ∀ v, getBalance (CheckUpdateUserOrders st uid
          (emissions resp (GetUserProcessingOrders st uid))).store v
        = getBalance st v) := by
  constructor
  · intro st resp h
    rw [h]
    rfl
  · intro st uid resp b h hb
    rw [h]
    have hrun : CheckUpdateUserOrders st uid (emissions resp [])
        = ⟨updateUserBalance st uid (b + 0), true, none⟩ := by
      simp [CheckUpdateUserOrders, emissions, drainUserGo, hb]
    rw [hrun]
    refine ⟨rfl, rfl, rfl, rfl, ?_⟩
    intro v
    rw [getBalance_updateUserBalance]
    by_cases hv : v = uid
    · subst hv; simp [hb]
    · simp [hv]

/-- Witness for C7's amended theorem: a concrete user with balance 5 and no
pending orders; the sweep opens the transaction and changes nothing. -/
theorem C7_empty_sweep_witness :
    (CheckUpdateUserOrders ⟨[], [(1, 5)], []⟩ 1
        (emissions (fun _ => .tooManyRequests)
          (GetUserProcessingOrders ⟨[], [(1, 5)], []⟩ 1))).txOpened = true ∧
    getBalance (CheckUpdateUserOrders ⟨[], [(1, 5)], []⟩ 1
        (emissions (fun _ => .tooManyRequests)
          (GetUserProcessingOrders ⟨[], [(1, 5)], []⟩ 1))).store 1
      = getBalance ⟨[], [(1, 5)], []⟩ 1 := by
  have h := C7_empty_sweep.2 ⟨[], [(1, 5)], []⟩ 1 (fun _ => .tooManyRequests) 5
    (by decide) (by decide)
  exact ⟨h.1, h.2.2.2.2 1⟩

/-- C8 counterexample: a withdrawal request whose order number fails the Luhn
check is rejected with `ErrOrderNumber`, not `ErrNotEnoughFunds`, even though
its sum (5) strictly exceeds the user's balance (0). -/
theorem C8_counterexample :
    getBalance ⟨[], [(1, 0)], []⟩ 1 = some 0 ∧ (0 : ℤ) < 5 ∧
    WithdrawalBonusForNewOrder ⟨[], [(1, 0)], []⟩ 1 "1".data 5
      = (⟨[], [(1, 0)], []⟩, some GoError.errOrderNumber) ∧
    GoError.errOrderNumber ≠ GoError.errNotEnoughFunds := by
  refine ⟨by decide, by decide, by decide, by decide⟩

/-- C8 amended: for a Luhn-valid order number, a withdrawal with sum
strictly greater than the current balance returns `ErrNotEnoughFunds` and
performs no write; a Luhn-invalid order number is rejected even earlier with
`ErrOrderNumber`, also without a write; and a withdrawal that commits leaves
the balance at `b - sum ≥ 0`, never negative. -/
theorem C8_withdrawal_guard :
    (∀ (st : Storage) (uid : Nat) (n : GoStr) (sum b : ℤ),
      isValidLuhn n = true → getBalance st uid = some b → b < sum →
      WithdrawalBonusForNewOrder st uid n sum = (st, some GoError.errNotEnoughFunds)) ∧
    (∀ (st : Storage) (uid : Nat) (n : GoStr) (sum : ℤ),
      isValidLuhn n = false →
      WithdrawalBonusForNewOrder st uid n sum = (st, some GoError.errOrderNumber)) ∧
    (∀ (st : Storage) (uid : Nat) (n : GoStr) (sum b : ℤ) (st' : Storage),
      getBalance st uid = some b →
      WithdrawalBonusForNewOrder st uid n sum = (st', none) →
      getBalance st' uid = some (b - sum) ∧ 0 ≤ b - sum) := by
  refine ⟨?_, ?_, ?_⟩
  · intro st uid n sum b hl hb hlt
    simp [WithdrawalBonusForNewOrder, hl, hb, hlt]
  · intro st uid n sum hl
    simp [WithdrawalBonusForNewOrder, hl]
  · intro st uid n sum b st' hb hrun
    by_cases hl : isValidLuhn n
    · rw [WithdrawalBonusForNewOrder] at hrun
      simp [hl, hb] at hrun
      by_cases hlt : b < sum
      · simp [hlt] at hrun
      · simp [hlt] at hrun
        subst hrun
        constructor
        · have h1 : getBalance (storeUserWithdrawal st uid n sum) uid = some b := by
            rw [getBalance_storeUserWithdrawal]; exact hb
          exact getBalance_updateUserBalance_self _ uid _ b h1
        · omega
    · simp [WithdrawalBonusForNewOrder, hl] at hrun

/-- Witness for C8's amended theorem: balance 10, withdrawal of 20 is
rejected with `ErrNotEnoughFunds` and storage is unchanged. -/
theorem C8_withdrawal_guard_witness :
    WithdrawalBonusForNewOrder ⟨[], [(1, 10)], []⟩ 1 "79927398713".data 20
      = (⟨[], [(1, 10)], []⟩, some GoError.errNotEnoughFunds) :=
  C8_withdrawal_guard.1 ⟨[], [(1, 10)], []⟩ 1 "79927398713".data 20 10
    (by decide) (by decide) (by decide)

/-- C4 counterexample: a pending order with stored status `PROCESSING` whose
query is answered with HTTP 429 does change after the sweep — its stored
status is rewritten to `NEW` and its stored accrual (5) is cleared. -/
theorem C4_counterexample :
    stProcessing.orders = [⟨"11".data, 1, some 5, "PROCESSING".data⟩] ∧
    (RunUpdateOrdersStatusJob stProcessing
        (emissions (fun _ => .tooManyRequests)
          (GetProcessingOrders stProcessing))).store.orders
      = [⟨"11".data, 1, none, "NEW".data⟩] ∧
    ¬ ("NEW".data : GoStr) = "PROCESSING".data := by
  refine ⟨by decide, by decide, by decide⟩

/-- C4 amended: a 429 or 204 response folds to a non-error result with
status `NEW` and no accrual, so it never produces a balance delta and never
aborts the batch; an order whose stored status is already `NEW` is filtered
out by the worker and stays unchanged, but an order whose stored status is
`PROCESSING` is emitted and the sweep rewrites it: status becomes `NEW` and
the stored accrual is cleared (the balance stays unchanged). -/
theorem C4_rate_limit :
    (∀ task : UserOrder,
      GetAccrualAPI task .tooManyRequests
        = .ok ⟨task.UserID, task.Number, "NEW".data, none⟩ ∧
      GetAccrualAPI task .noContent
        = .ok ⟨task.UserID, task.Number, "NEW".data, none⟩) ∧
    (∀ task : UserOrder, task.Status = "NEW".data →
      workerStep task .tooManyRequests = none ∧
      workerStep task .noContent = none) ∧
    (∀ task : UserOrder, task.Status = "PROCESSING".data →
      workerStep task .tooManyRequests
        = some (.ok ⟨task.UserID, task.Number, "NEW".data, none⟩) ∧
      workerStep task .noContent
        = some (.ok ⟨task.UserID, task.Number, "NEW".data, none⟩)) ∧
    (∀ (n : GoStr) (u : Nat) (a : Option ℤ) (b : ℤ),
      (RunUpdateOrdersStatusJob ⟨[⟨n, u, a, "PROCESSING".data⟩], [(u, b)], []⟩
          (emissions (fun _ => .tooManyRequests)
            (GetProcessingOrders ⟨[⟨n, u, a, "PROCESSING".data⟩], [(u, b)], []⟩))).err
        = none ∧
      (RunUpdateOrdersStatusJob ⟨[⟨n, u, a, "PROCESSING".data⟩], [(u, b)], []⟩
          (emissions (fun _ => .tooManyRequests)
            (GetProcessingOrders ⟨[⟨n, u, a, "PROCESSING".data⟩], [(u, b)], []⟩))).store
        = ⟨[⟨n, u, none, "NEW".data⟩], [(u, b)], []⟩) := by
  refine ⟨?_, ?_, ?_, ?_⟩
  · intro task; exact ⟨rfl, rfl⟩
  · intro task h
    constructor <;> simp [workerStep, GetAccrualAPI, h]
  · intro task h
    constructor <;> simp [workerStep, GetAccrualAPI, h]
  · intro n u a b
    have htasks : GetProcessingOrders ⟨[⟨n, u, a, "PROCESSING".data⟩], [(u, b)], []⟩
        = [⟨u, n, "PROCESSING".data⟩] := by
      simp +decide [GetProcessingOrders]
    have hev : emissions (fun _ => .tooManyRequests) [(⟨u, n, "PROCESSING".data⟩ : UserOrder)]
        = [Except.ok ⟨u, n, "NEW".data, none⟩] := by
      simp +decide [emissions, workerStep, GetAccrualAPI]
    rw [htasks, hev]
    have hdrain : drainGlobalGo ⟨[⟨n, u, a, "PROCESSING".data⟩], [(u, b)], []⟩
        [Except.ok ⟨u, n, "NEW".data, none⟩] [] []
        = .ok ([⟨u, n, "NEW".data, none⟩], []) := rfl
    constructor
    · simp [RunUpdateOrdersStatusJob, hdrain]
    · simp [RunUpdateOrdersStatusJob, hdrain, globalCommitBody, usersBalanceUpdate,
        updateOrdersRows]

/-- Witness for C4's amended theorem: a `PROCESSING` order with stored
accrual 5 hit by a 429 sweep ends up `NEW` with its accrual cleared. -/
theorem C4_rate_limit_witness :
    (RunUpdateOrdersStatusJob ⟨[⟨"11".data, 2, some 5, "PROCESSING".data⟩], [(2, 7)], []⟩
        (emissions (fun _ => .tooManyRequests)
          (GetProcessingOrders
            ⟨[⟨"11".data, 2, some 5, "PROCESSING".data⟩], [(2, 7)], []⟩))).store
      = ⟨[⟨"11".data, 2, none, "NEW".data⟩], [(2, 7)], []⟩ :=
  (C4_rate_limit.2.2.2 "11".data 2 (some 5) 7).2

/-- C6 counterexample: an external result with status `REGISTERED` reaching
the system-wide sweep is stored verbatim — after the commit the stored status
is `REGISTERED`, not `NEW`. -/
theorem C6_counterexample :
    (RunUpdateOrdersStatusJob stNewOrder
        (emissions respRegistered (GetProcessingOrders stNewOrder))).store.orders
      = [⟨"11".data, 1, none, "REGISTERED".data⟩] ∧
    ¬ ("REGISTERED".data : GoStr) = "NEW".data := by
  refine ⟨by decide, by decide⟩

/-- C6 amended: the `REGISTERED`→`NEW` normalization exists only on the
order-intake path, where a successful accrual-bearing `REGISTERED` result is
stored as `NEW`; the accrual client itself returns the parsed status
verbatim, and the sweep paths commit it unnormalized, so a sweep can store
status `REGISTERED`. -/
theorem C6_registered_normalization :
    (∀ (st : Storage) (uid : Nat) (n : GoStr) (body : AccrualBody) (a : ℤ),
      isValidLuhn n = true → getUUIDFromOrders st n = none →
      body.status = "REGISTERED".data → body.accrual = some a →
      InputUserOrder st uid n (.okBody (some body))
        = .completed (updateUserBalance (storeUserOrder st n "NEW".data uid a) uid
            ((getBalance st uid).getD 0 + a)) none) ∧
    (∀ (task : UserOrder) (body : AccrualBody),
      GetAccrualAPI task (.okBody (some body))
        = .ok ⟨task.UserID, body.order, body.status, body.accrual⟩) ∧
    (∀ (n : GoStr) (u : Nat) (b : ℤ),
      (RunUpdateOrdersStatusJob ⟨[⟨n, u, none, "NEW".data⟩], [(u, b)], []⟩
          (emissions (fun _ => .okBody (some ⟨n, "REGISTERED".data, none⟩))
            (GetProcessingOrders ⟨[⟨n, u, none, "NEW".data⟩], [(u, b)], []⟩))).store.orders
        = [⟨n, u, none, "REGISTERED".data⟩]) := by
  refine ⟨?_, ?_, ?_⟩
  · intro st uid n body a hl howner hst hacc
    simp [InputUserOrder, hl, howner, GetAccrualAPI, hst, hacc]
  · intro task body; rfl
  · intro n u b
    have htasks : GetProcessingOrders ⟨[⟨n, u, none, "NEW".data⟩], [(u, b)], []⟩
        = [⟨u, n, "NEW".data⟩] := by
      simp +decide [GetProcessingOrders]
    have hev : emissions (fun _ => .okBody (some ⟨n, "REGISTERED".data, none⟩))
          [(⟨u, n, "NEW".data⟩ : UserOrder)]
        = [Except.ok ⟨u, n, "REGISTERED".data, none⟩] := by
      simp +decide [emissions, workerStep, GetAccrualAPI]
    rw [htasks, hev]
    have hdrain : drainGlobalGo ⟨[⟨n, u, none, "NEW".data⟩], [(u, b)], []⟩
        [Except.ok ⟨u, n, "REGISTERED".data, none⟩] [] []
        = .ok ([⟨u, n, "REGISTERED".data, none⟩], []) := rfl
    simp [RunUpdateOrdersStatusJob, hdrain, globalCommitBody, usersBalanceUpdate,
      updateOrdersRows]

/-- Witness for C6's amended theorem: intake of a fresh valid order whose
query result is `REGISTERED` with accrual 3 stores the order with status
`NEW`. -/
theorem C6_registered_normalization_witness :
    InputUserOrder stEmpty 1 "79927398713".data
        (.okBody (some ⟨"79927398713".data, "REGISTERED".data, some 3⟩))
      = .completed (updateUserBalance
          (storeUserOrder stEmpty "79927398713".data "NEW".data 1 3) 1
          ((getBalance stEmpty 1).getD 0 + 3)) none :=
  C6_registered_normalization.1 stEmpty 1 "79927398713".data
    ⟨"79927398713".data, "REGISTERED".data, some 3⟩ 3
    (by decide) (by decide) rfl rfl

/-! ## Helper lemmas about the Luhn embedding -/

theorem atoiRune_digitChar : ∀ d : Nat, d < 10 → atoiRune (Nat.digitChar d) = d := by
  decide

theorem utf8Size_digitChar : ∀ d : Nat, d < 10 → (Nat.digitChar d).utf8Size = 1 := by
  decide

theorem goLen_digits (ds : List Nat) (h : ∀ d ∈ ds, d < 10) :
    goLen (ds.map Nat.digitChar) = ds.length := by
  induction ds with
  | nil => rfl
  | cons d rest ih =>
    have hd : d < 10 := h d (by simp)
    have hrest : ∀ x ∈ rest, x < 10 := fun x hx => h x (by simp [hx])
    simp [goLen, utf8Size_digitChar d hd] at ih ⊢
    rw [ih hrest]
    omega

theorem parity_flip (i p : Nat) (hp : p < 2) :
    decide ((i + 1) % 2 = p) = !decide (i % 2 = p) := by
  rcases Nat.mod_two_eq_zero_or_one i with h | h <;> interval_cases p <;>
    simp [Nat.add_mod, h]

theorem luhnGoSum_digits (ds : List Nat) (h : ∀ d ∈ ds, d < 10) (i p : Nat)
    (hp : p < 2) :
    luhnGoSum (ds.map Nat.digitChar) i p = luhnLeftSum ds (decide (i % 2 = p)) := by
  induction ds generalizing i with
  | nil => rfl
  | cons d rest ih =>
    have hd : d < 10 := h d (by simp)
    have hrest : ∀ x ∈ rest, x < 10 := fun x hx => h x (by simp [hx])
    have htail := ih hrest (i + 1)
    rw [List.map_cons, luhnGoSum, atoiRune_digitChar d hd, utf8Size_digitChar d hd,
      htail, parity_flip i p hp]
    by_cases hip : i % 2 = p
    · simp [hip, luhnLeftSum, luhnDouble]
    · simp [hip, luhnLeftSum]

theorem decide_mod_two_succ_one (m : Nat) :
    decide ((m + 1) % 2 = 1) = !decide (m % 2 = 1) := by
  rcases Nat.mod_two_eq_zero_or_one m with h | h <;> simp [Nat.add_mod, h]

theorem decide_mod_two_succ_zero (m : Nat) :
    decide ((m + 1) % 2 = 0) = decide (m % 2 = 1) := by
  rcases Nat.mod_two_eq_zero_or_one m with h | h <;> simp [Nat.add_mod, h]

theorem decide_mod_two_one_not (m : Nat) :
    decide (m % 2 = 1) = !decide (m % 2 = 0) := by
  rcases Nat.mod_two_eq_zero_or_one m with h | h <;> simp [h]

theorem luhnLeftSum_append (xs ys : List Nat) (b : Bool) :
    luhnLeftSum (xs ++ ys) b
      = luhnLeftSum xs b + luhnLeftSum ys (Bool.xor b (decide (xs.length % 2 = 1))) := by
  induction xs generalizing b with
  | nil => simp [luhnLeftSum]
  | cons d rest ih =>
    rw [List.cons_append, luhnLeftSum, luhnLeftSum, ih (!b), Nat.add_assoc]
    have hflag : Bool.xor (!b) (decide (rest.length % 2 = 1))
        = Bool.xor b (decide ((rest.length + 1) % 2 = 1)) := by
      rw [decide_mod_two_succ_one, Bool.not_xor, Bool.xor_not]
    rw [hflag]
    simp

theorem luhnAltSum_eq_leftSum (l : List Nat) (b : Bool) :
    luhnAltSum b l = luhnLeftSum l b := by
  induction l generalizing b with
  | nil => rfl
  | cons d rest ih => rw [luhnAltSum, luhnLeftSum, ih]

theorem luhnLeftSum_reverse (ds : List Nat) (c : Bool) :
    luhnLeftSum ds (Bool.xor c (decide (ds.length % 2 = 0)))
      = luhnLeftSum ds.reverse c := by
  induction ds using List.reverseRecOn generalizing c with
  | nil => rfl
  | append_singleton xs d ih =>
    rw [List.reverse_append]
    simp only [List.reverse_singleton, List.singleton_append]
    rw [luhnLeftSum_append, luhnLeftSum]
    have hlen : (xs ++ [d]).length = xs.length + 1 := by simp
    have hB : Bool.xor (Bool.xor c (decide ((xs ++ [d]).length % 2 = 0)))
        (decide (xs.length % 2 = 1)) = c := by
      rw [hlen, decide_mod_two_succ_zero, Bool.xor_assoc, Bool.xor_self, Bool.xor_false]
    have hA : Bool.xor c (decide ((xs ++ [d]).length % 2 = 0))
        = Bool.xor (!c) (decide (xs.length % 2 = 0)) := by
      rw [hlen, decide_mod_two_succ_zero, decide_mod_two_one_not, Bool.xor_not,
        Bool.not_xor]
    rw [hB, hA, ih (!c), luhnLeftSum, luhnLeftSum]
    simp [Nat.add_comm]

theorem luhnGoSum_eq_checksum (ds : List Nat) (h : ∀ d ∈ ds, d < 10) :
    luhnGoSum (ds.map Nat.digitChar) 0 (goLen (ds.map Nat.digitChar) % 2)
      = luhnChecksum ds := by
  rw [goLen_digits ds h, luhnGoSum_digits ds h 0 (ds.length % 2) (Nat.mod_lt _ (by omega))]
  have hflag : decide (0 % 2 = ds.length % 2)
      = Bool.xor false (decide (ds.length % 2 = 0)) := by
    rcases Nat.mod_two_eq_zero_or_one ds.length with h2 | h2 <;> simp [h2]
  rw [hflag, luhnLeftSum_reverse, luhnChecksum, luhnAltSum_eq_leftSum]

theorem isValidLuhn_digits_iff (ds : List Nat) (h : ∀ d ∈ ds, d < 10) :
    isValidLuhn (ds.map Nat.digitChar) = true ↔ luhnChecksum ds % 10 = 0 := by
  rw [isValidLuhn, luhnGoSum_eq_checksum ds h]
  simp

theorem luhnDouble_mod_ten_inj :
    ∀ d : Nat, d < 10 → ∀ e : Nat, e < 10 → ¬ d = e →
      ¬ luhnDouble d % 10 = luhnDouble e % 10 := by
  decide

theorem luhnChecksum_middle_decompose (u v : List Nat) (e : Nat) :
    luhnChecksum (u ++ e :: v)
      = luhnLeftSum v.reverse false
          + luhnLeftSum [e]
              (Bool.xor false (decide (v.reverse.length % 2 = 1)))
          + luhnLeftSum u.reverse
              (Bool.xor false (decide ((v.reverse ++ [e]).length % 2 = 1))) := by
  have hrev : (u ++ e :: v).reverse = (v.reverse ++ [e]) ++ u.reverse := by simp
  rw [luhnChecksum, luhnAltSum_eq_leftSum, hrev, luhnLeftSum_append, luhnLeftSum_append]

theorem luhnLeftSum_single_mod_ne (d d' : Nat) (hd : d < 10) (hd' : d' < 10)
    (hne : ¬ d = d') (f : Bool) :
    ¬ luhnLeftSum [d] f % 10 = luhnLeftSum [d'] f % 10 := by
  cases f
  · simp [luhnLeftSum, Nat.mod_eq_of_lt hd, Nat.mod_eq_of_lt hd']
    omega
  · simp [luhnLeftSum]
    exact luhnDouble_mod_ten_inj d hd d' hd' hne

theorem luhnGoSum_nondigit (cs : GoStr) (h : ∀ c ∈ cs, c.isDigit = false)
    (i p : Nat) : luhnGoSum cs i p = 0 := by
  induction cs generalizing i with
  | nil => rfl
  | cons c rest ih =>
    have hc : c.isDigit = false := h c (by simp)
    have hrest : ∀ x ∈ rest, x.isDigit = false := fun x hx => h x (by simp [hx])
    rw [luhnGoSum]
    simp only [atoiRune, hc, Bool.false_eq_true, if_false]
    rw [ih hrest]
    by_cases hip : i % 2 = p <;> simp [hip]

theorem goLen_zeroSubst (cs : GoStr) (hsz : ∀ c ∈ cs, c.utf8Size = 1) :
    goLen (cs.map (fun c => if c.isDigit then c else '0')) = goLen cs := by
  rw [goLen, goLen, List.map_map]
  refine congrArg List.sum (List.map_congr_left ?_)
  intro c hc
  by_cases hd : c.isDigit
  · simp [hd]
  · simp only [Function.comp_apply, if_neg hd]
    rw [hsz c hc]
    rfl

theorem luhnGoSum_zeroSubst :
    ∀ cs : GoStr, (∀ c ∈ cs, c.utf8Size = 1) → ∀ i p : Nat,
      luhnGoSum (cs.map (fun c => if c.isDigit then c else '0')) i p
        = luhnGoSum cs i p := by
  intro cs
  induction cs with
  | nil => intro _ i p; rfl
  | cons c rest ih =>
    intro hsz i p
    have hc : c.utf8Size = 1 := hsz c (by simp)
    have hrest : ∀ x ∈ rest, x.utf8Size = 1 := fun x hx => hsz x (by simp [hx])
    have hsize : (if c.isDigit then c else '0').utf8Size = c.utf8Size := by
      by_cases hd : c.isDigit
      · rw [if_pos hd]
      · rw [if_neg hd, hc]
        rfl
    have hval : atoiRune (if c.isDigit then c else '0') = atoiRune c := by
      by_cases hd : c.isDigit
      · rw [if_pos hd]
      · rw [if_neg hd]
        simp [atoiRune, hd]
    rw [List.map_cons, luhnGoSum, luhnGoSum, hval, hsize, ih hrest (i + c.utf8Size) p]

/-! ## Claim theorems for the Luhn validator -/

/-- C9: `isValidLuhn` agrees with the mathematical Luhn checksum on every
digit string; flipping any single digit of a Luhn-valid digit string makes it
invalid; the known-good number 79927398713 passes and the known-bad
79927398710 fails; and `InputUserOrder` rejects a number failing the check
with `ErrOrderNumber`, touching neither storage nor the accrual service. -/
theorem C9_luhn_validator :
    (∀ ds : List Nat, (∀ d ∈ ds, d < 10) →
      (isValidLuhn (ds.map Nat.digitChar) = true ↔ luhnChecksum ds % 10 = 0)) ∧
    (∀ (u v : List Nat) (d d' : Nat), (∀ x ∈ u, x < 10) → (∀ x ∈ v, x < 10) →
      d < 10 → d' < 10 → ¬ d = d' →
      isValidLuhn ((u ++ d :: v).map Nat.digitChar) = true →
      isValidLuhn ((u ++ d' :: v).map Nat.digitChar) = false) ∧
    (isValidLuhn "79927398713".data = true ∧ isValidLuhn "79927398710".data = false) ∧
    (∀ (st : Storage) (uid : Nat) (n : GoStr) (resp : AccrualHTTPResponse),
      isValidLuhn n = false →
      InputUserOrder st uid n resp = .completed st (some GoError.errOrderNumber)) := by
  refine ⟨isValidLuhn_digits_iff, ?_, ⟨by decide, by decide⟩, ?_⟩
  · intro u v d d' hu hv hd hd' hne hvalid
    have hb1 : ∀ x ∈ u ++ d :: v, x < 10 := by
      intro x hx
      rcases List.mem_append.mp hx with h | h
      · exact hu x h
      · rcases List.mem_cons.mp h with h | h
        · rw [h]; exact hd
        · exact hv x h
    have hb2 : ∀ x ∈ u ++ d' :: v, x < 10 := by
      intro x hx
      rcases List.mem_append.mp hx with h | h
      · exact hu x h
      · rcases List.mem_cons.mp h with h | h
        · rw [h]; exact hd'
        · exact hv x h
    have h1 : luhnChecksum (u ++ d :: v) % 10 = 0 :=
      (isValidLuhn_digits_iff _ hb1).mp hvalid
    cases hbool : isValidLuhn ((u ++ d' :: v).map Nat.digitChar)
    · rfl
    · exfalso
      have h2 : luhnChecksum (u ++ d' :: v) % 10 = 0 :=
        (isValidLuhn_digits_iff _ hb2).mp hbool
      rw [luhnChecksum_middle_decompose] at h1 h2
      have hmid := luhnLeftSum_single_mod_ne d d' hd hd' hne
        (Bool.xor false (decide (v.reverse.length % 2 = 1)))
      have hlen : (v.reverse ++ [d]).length = (v.reverse ++ [d']).length := by simp
      rw [hlen] at h1
      omega
  · intro st uid n resp h
    simp [InputUserOrder, h]

/-- Witness for C9: the digit-string equivalence applied to the digits of
79927398713, which satisfy the checksum. -/
theorem C9_luhn_validator_witness :
    isValidLuhn ([7, 9, 9, 2, 7, 3, 9, 8, 7, 1, 3].map Nat.digitChar) = true ↔
      luhnChecksum [7, 9, 9, 2, 7, 3, 9, 8, 7, 1, 3] % 10 = 0 :=
  C9_luhn_validator.1 [7, 9, 9, 2, 7, 3, 9, 8, 7, 1, 3] (by decide)

/-- C10: `isValidLuhn` accepts the empty string; every character that is not
an ASCII digit contributes as the digit 0 (the `strconv.Atoi` error is
discarded), so any string of non-digits — letters included — passes the
check; such strings then reach the owner lookup in `InputUserOrder` and the
balance check in `WithdrawalBonusForNewOrder`. -/
theorem C10_nondigit_strings :
    (isValidLuhn [] = true) ∧
    (∀ cs : GoStr, (∀ c ∈ cs, c.isDigit = false) → isValidLuhn cs = true) ∧
    (∀ cs : GoStr, (∀ c ∈ cs, c.utf8Size = 1) →
      isValidLuhn cs
        = isValidLuhn (cs.map (fun c => if c.isDigit then c else '0'))) ∧
    (∀ (st : Storage) (uid : Nat) (cs : GoStr) (resp : AccrualHTTPResponse),
      (∀ c ∈ cs, c.isDigit = false) → getUUIDFromOrders st cs = some uid →
      InputUserOrder st uid cs resp = .completed st (some GoError.errUserOrderExists)) ∧
    (∀ (st : Storage) (uid : Nat) (cs : GoStr) (sum b : ℤ),
      (∀ c ∈ cs, c.isDigit = false) → getBalance st uid = some b → b < sum →
      WithdrawalBonusForNewOrder st uid cs sum
        = (st, some GoError.errNotEnoughFunds)) := by
  have hnd : ∀ cs : GoStr, (∀ c ∈ cs, c.isDigit = false) → isValidLuhn cs = true := by
    intro cs h
    rw [isValidLuhn, luhnGoSum_nondigit cs h]
    rfl
  refine ⟨rfl, hnd, ?_, ?_, ?_⟩
  · intro cs hsz
    rw [isValidLuhn, isValidLuhn, luhnGoSum_zeroSubst cs hsz, goLen_zeroSubst cs hsz]
  · intro st uid cs resp h howner
    simp [InputUserOrder, hnd cs h, howner]
  · intro st uid cs sum b h hb hlt
    simp [WithdrawalBonusForNewOrder, hnd cs h, hb, hlt]

/-- Witness for C10: the all-letter string `abc` passes the Luhn check. -/
theorem C10_nondigit_strings_witness : isValidLuhn "abc".data = true :=
  C10_nondigit_strings.2.1 "abc".data (by decide)

end Gophermart
